import Mathlib

/-
Verification of the blueprint composition subsystem (operations.go) of the
render-compose repository.

Two embeddings are developed:

* namespace `Render` — the value-level (functional) model: a Blueprint is a
  tree of values, and every operation is the function the Go code computes on
  the observable values of its inputs.  Strings are modeled as Lean strings
  (sequences of characters); the Go code indexes strings by byte, which agrees
  with the character view on ASCII data, and all names occurring in concrete
  inputs below are ASCII.

* namespace `RenderH` — the heap model: the Go data layout is kept, with the
  pointer-valued fields (EnvVar.FromDatabase, EnvVar.FromService,
  EnvVar.FromGroup, Blueprint.Previews, Blueprint.PreviewsExpireAfterDays) and
  the backing arrays of the nested slices (Service.EnvVars, EnvVarGroup.EnvVars,
  Database.ReadReplicas) modeled as addresses into an explicit store.  This is
  the model in which mutation and sharing of sub-structure are observable.
  The three top-level collections (Services, Databases, EnvVarGroups) are kept
  inline as lists because every operation of the file allocates a fresh backing
  array for them before writing (make+copy in CopyBlueprint, append to an empty
  slice in MergeBlueprints), so no sharing is ever observable through them.

The Service and Database records keep the fields the composition operations
read or write (name, type, runtime, envVars, readReplicas) plus a
representative payload field (plan); the remaining payload fields of the Go
structs are never inspected by any operation in operations.go and are carried
verbatim by all of them, exactly like plan.
-/

namespace Render

/-- FromDatabase reference (structs file): target database name and property. -/
structure FromDatabase where
  name : String
  property : String
  deriving DecidableEq, Repr

/-- FromService reference: target service name, type and optional property. -/
structure FromService where
  name : String
  type : String
  property : Option String
  envVarKey : Option String
  deriving DecidableEq, Repr

/-- EnvVar: one struct with mutually exclusive optional fields, as in the Go
source. -/
structure EnvVar where
  key : Option String
  value : Option String
  generateValue : Option Bool
  sync : Option Bool
  fromDatabase : Option FromDatabase
  fromService : Option FromService
  fromGroup : Option String
  deriving DecidableEq, Repr

/-- ReadReplica: carries only a name. -/
structure ReadReplica where
  name : String
  deriving DecidableEq, Repr

/-- Service record (fields the operations touch, plus plan; see header note). -/
structure Service where
  name : String
  type : String
  runtime : Option String
  plan : Option String
  envVars : List EnvVar
  deriving DecidableEq, Repr

/-- Database record (fields the operations touch, plus plan; see header note). -/
structure Database where
  name : String
  plan : Option String
  readReplicas : List ReadReplica
  deriving DecidableEq, Repr

/-- EnvVarGroup: a named sequence of EnvVars. -/
structure EnvVarGroup where
  name : String
  envVars : List EnvVar
  deriving DecidableEq, Repr

/-- Previews: the preview-generation singleton setting. -/
structure Previews where
  generation : String
  deriving DecidableEq, Repr

/-- Blueprint: the root document. -/
structure Blueprint where
  services : List Service := []
  databases : List Database := []
  envVarGroups : List EnvVarGroup := []
  previews : Option Previews := none
  previewsExpireAfterDays : Option Int := none
  deriving DecidableEq, Repr

/-- ServiceTypeKeyValue constant from the enum catalog. -/
def ServiceTypeKeyValue : String := "keyvalue"

/-- Go strings.HasPrefix on the character view. -/
def goHasPfx (s pre : String) : Bool :=
  pre.data.isPrefixOf s.data

/-- Go byte-slicing s[:n] on the character view. -/
def goTake (s : String) (n : Nat) : String :=
  ⟨s.data.take n⟩

/-- Go strings.Replace(s, old, new, 1): replace the first occurrence of old in
s by new; when old is empty, Go inserts new at the beginning of s. -/
def goReplaceOnceAux : List Char → List Char → List Char → List Char
  | [], old, new => if old.isPrefixOf ([] : List Char) then new else []
  | c :: rest, old, new =>
    if old.isPrefixOf (c :: rest) then new ++ (c :: rest).drop old.length
    else c :: goReplaceOnceAux rest old new

/-- Go strings.Replace with limit 1, lifted to strings. -/
def goReplaceOnce (s old new : String) : String :=
  ⟨goReplaceOnceAux s.data old.data new.data⟩

/-- The overlay-iteration loop shared by the three kinds in FindConflicts:
walks the overlay names in order and appends one description per name that is
present in the base map. -/
def conflictLoop (inBase : String → Bool) (mk : String → String) : List String → List String
  | [] => []
  | n :: rest => (if inBase n then [mk n] else []) ++ conflictLoop inBase mk rest

/-- FindConflicts (operations.go): one description per same-kind collision,
services first, then databases, then env groups, each kind in overlay order;
a nil input yields the empty list. -/
def FindConflicts : Option Blueprint → Option Blueprint → List String
  | none, _ => []
  | some _, none => []
  | some base, some overlay =>
    conflictLoop (fun n => (base.services.map Service.name).contains n)
        (fun n => ("service name conflict: ") ++ n)
        (overlay.services.map Service.name)
      ++ conflictLoop (fun n => (base.databases.map Database.name).contains n)
        (fun n => ("database name conflict: ") ++ n)
        (overlay.databases.map Database.name)
      ++ conflictLoop (fun n => (base.envVarGroups.map EnvVarGroup.name).contains n)
        (fun n => ("environment group name conflict: ") ++ n)
        (overlay.envVarGroups.map EnvVarGroup.name)

/-- CopyBlueprint (operations.go).  On the value level a deep copy of a value
is the value itself and a nil input yields the empty blueprint; the sharing
that the shallow Go copy actually creates is modeled in namespace RenderH. -/
def CopyBlueprint : Option Blueprint → Blueprint
  | none => {}
  | some bp => bp

/-- MergeBlueprints (operations.go): nil cases degenerate to copies; with
conflicts the merge fails carrying all of them; otherwise collections are
concatenated base-first and the overlay wins both preview singletons when it
sets them. -/
def MergeBlueprints : Option Blueprint → Option Blueprint → Except String Blueprint
  | none, none => .ok {}
  | none, some overlay => .ok (CopyBlueprint (some overlay))
  | some base, none => .ok (CopyBlueprint (some base))
  | some base, some overlay =>
    let conflicts := FindConflicts (some base) (some overlay)
    if conflicts = [] then
      .ok { services := base.services ++ overlay.services
            databases := base.databases ++ overlay.databases
            envVarGroups := base.envVarGroups ++ overlay.envVarGroups
            previews := if overlay.previews.isSome then overlay.previews else base.previews
            previewsExpireAfterDays :=
              if overlay.previewsExpireAfterDays.isSome then overlay.previewsExpireAfterDays
              else base.previewsExpireAfterDays }
    else
      .error (("merge conflicts found: ") ++ String.intercalate (", ") conflicts
        ++ (". Use PrefixBlueprint() to avoid name conflicts before merging"))

/-- The duplicate-name loop of ValidateBlueprint: walks the names with the set
of already-seen names, emitting one message per name already seen. -/
def dupLoop (mk : String → String) : List String → List String → List String
  | _, [] => []
  | seen, n :: rest =>
    (if seen.contains n then [mk n] else []) ++ dupLoop mk (n :: seen) rest

/-- The required-fields loop over services in ValidateBlueprint. -/
def serviceFieldErrors : List Service → List String
  | [] => []
  | s :: rest =>
    (if s.name = "" then [("service missing name")] else [])
      ++ (if s.type = "" then [("service ") ++ s.name ++ (" missing type")] else [])
      ++ (if s.runtime = none ∧ s.type ≠ ServiceTypeKeyValue then
            [("service ") ++ s.name ++ (" missing runtime")] else [])
      ++ serviceFieldErrors rest

/-- The required-fields loop over databases in ValidateBlueprint. -/
def databaseFieldErrors : List Database → List String
  | [] => []
  | d :: rest =>
    (if d.name = "" then [("database missing name")] else []) ++ databaseFieldErrors rest

/-- The required-fields loop over env groups in ValidateBlueprint. -/
def envGroupFieldErrors : List EnvVarGroup → List String
  | [] => []
  | g :: rest =>
    (if g.name = "" then [("environment group missing name")] else [])
      ++ envGroupFieldErrors rest

/-- ValidateBlueprint (operations.go): all checks reported, in the order the
source emits them. -/
def ValidateBlueprint : Option Blueprint → List String
  | none => [("blueprint is nil")]
  | some bp =>
    dupLoop (fun n => ("duplicate service name: ") ++ n) [] (bp.services.map Service.name)
      ++ dupLoop (fun n => ("duplicate database name: ") ++ n) [] (bp.databases.map Database.name)
      ++ dupLoop (fun n => ("duplicate environment group name: ") ++ n) []
          (bp.envVarGroups.map EnvVarGroup.name)
      ++ serviceFieldErrors bp.services
      ++ databaseFieldErrors bp.databases
      ++ envGroupFieldErrors bp.envVarGroups

/-- Lookup in the old-to-new rename map PrefixBlueprint builds for one kind:
the map holds exactly the names defined in the blueprint for that kind, each
mapped to pfx prepended to it. -/
def renameWith (names : List String) (pfx n : String) : String :=
  if names.contains n then pfx ++ n else n

/-- The updateEnvVarReferences closure of PrefixBlueprint applied to a single
EnvVar: each of the three reference fields is rewritten through the matching
kind map, hence only when the referenced name is defined in the blueprint. -/
def updateEnvVarReferences (svcNames dbNames grpNames : List String) (pfx : String)
    (e : EnvVar) : EnvVar :=
  { e with
    fromDatabase := e.fromDatabase.map fun fd => { fd with name := renameWith dbNames pfx fd.name }
    fromService := e.fromService.map fun fs => { fs with name := renameWith svcNames pfx fs.name }
    fromGroup := e.fromGroup.map fun g => renameWith grpNames pfx g }

/-- The read-replica step of PrefixBlueprint for one replica of a database
whose (already renamed) name is newDBName: the source computes
db.Name[:len(db.Name)-len(prefix)] — the leading len(db.Name)-len(prefix)
characters of the renamed name — checks that the replica name starts with it
(twice, as in the source), and replaces its first occurrence by the renamed
database name. -/
def updateReplica (pfx newDBName : String) (r : ReadReplica) : ReadReplica :=
  if goHasPfx r.name (goTake newDBName (newDBName.data.length - pfx.data.length)) then
    let oldDBName := goTake newDBName (newDBName.data.length - pfx.data.length)
    if goHasPfx r.name oldDBName then
      { name := goReplaceOnce r.name oldDBName newDBName }
    else r
  else r

/-- PrefixBlueprint (operations.go).  A nil blueprint or an empty prefix
degenerates to CopyBlueprint.  Otherwise the source works on a copy in five
passes: rename service, database and env-group names through the per-kind
maps built from the original names; rewrite the references of every EnvVar of
every service and of every env group through those same maps; finally rewrite
read-replica names against each renamed database name. -/
def PrefixBlueprint (obp : Option Blueprint) (pfx : String) : Blueprint :=
  match obp with
  | none => CopyBlueprint none
  | some bp =>
    if pfx = "" then CopyBlueprint (some bp)
    else
      let svcNames := bp.services.map Service.name
      let dbNames := bp.databases.map Database.name
      let grpNames := bp.envVarGroups.map EnvVarGroup.name
      let services1 := bp.services.map fun s => { s with name := renameWith svcNames pfx s.name }
      let databases1 := bp.databases.map fun d => { d with name := renameWith dbNames pfx d.name }
      let groups1 := bp.envVarGroups.map fun g => { g with name := renameWith grpNames pfx g.name }
      let services2 := services1.map fun s =>
        { s with envVars := s.envVars.map (updateEnvVarReferences svcNames dbNames grpNames pfx) }
      let groups2 := groups1.map fun g =>
        { g with envVars := g.envVars.map (updateEnvVarReferences svcNames dbNames grpNames pfx) }
      let databases2 := databases1.map fun d =>
        { d with readReplicas := d.readReplicas.map (updateReplica pfx d.name) }
      { services := services2
        databases := databases2
        envVarGroups := groups2
        previews := bp.previews
        previewsExpireAfterDays := bp.previewsExpireAfterDays }

/-- PrefixBlueprintWithSeparator (operations.go): an empty separator defaults
to a dash, then the core operation runs with pfx followed by the separator. -/
def PrefixBlueprintWithSeparator (obp : Option Blueprint) (pfx sep : String) : Blueprint :=
  if sep = "" then PrefixBlueprint obp (pfx ++ ("-"))
  else PrefixBlueprint obp (pfx ++ sep)

end Render

namespace RenderH

/-- EnvVar as laid out in Go memory: the three reference fields are pointers,
modeled as addresses into the stores of the heap below. -/
structure EnvVarH where
  key : Option String
  value : Option String
  generateValue : Option Bool
  sync : Option Bool
  fromDatabase : Option Nat
  fromService : Option Nat
  fromGroup : Option Nat
  deriving DecidableEq, Repr

/-- Service struct: the EnvVars slice is nil or the id of its backing array. -/
structure ServiceH where
  name : String
  type : String
  runtime : Option String
  plan : Option String
  envVars : Option Nat
  deriving DecidableEq, Repr

/-- Database struct: the ReadReplicas slice is nil or the id of its backing
array. -/
structure DatabaseH where
  name : String
  plan : Option String
  readReplicas : Option Nat
  deriving DecidableEq, Repr

/-- EnvVarGroup struct. -/
structure EnvVarGroupH where
  name : String
  envVars : Option Nat
  deriving DecidableEq, Repr

/-- Blueprint struct: the two singleton settings are pointers, modeled as cell
addresses; the three top-level collections are inline (see the header note). -/
structure BlueprintH where
  services : List ServiceH := []
  databases : List DatabaseH := []
  envVarGroups : List EnvVarGroupH := []
  previews : Option Nat := none
  previewsExpireAfterDays : Option Nat := none
  deriving DecidableEq, Repr

/-- The store of every mutable location the operations of operations.go can
reach: FromDatabase cells, FromService cells, the string cells FromGroup
pointers refer to, the backing arrays of EnvVars slices, the backing arrays of
ReadReplicas slices, Previews cells and the int cells of the expiry setting. -/
structure Heap where
  fromDb : List Render.FromDatabase := []
  fromSvc : List Render.FromService := []
  strs : List String := []
  envArrays : List (List EnvVarH) := []
  replicaArrays : List (List Render.ReadReplica) := []
  previewsCells : List Render.Previews := []
  intCells : List Int := []
  deriving DecidableEq, Repr

def Heap.setFromDb (h : Heap) (a : Nat) (v : Render.FromDatabase) : Heap :=
  { h with fromDb := h.fromDb.set a v }

def Heap.setFromSvc (h : Heap) (a : Nat) (v : Render.FromService) : Heap :=
  { h with fromSvc := h.fromSvc.set a v }

def Heap.setStr (h : Heap) (a : Nat) (v : String) : Heap :=
  { h with strs := h.strs.set a v }

def Heap.setReplicaArray (h : Heap) (a : Nat) (v : List Render.ReadReplica) : Heap :=
  { h with replicaArrays := h.replicaArrays.set a v }

def Heap.setPreviewsCell (h : Heap) (a : Nat) (v : Render.Previews) : Heap :=
  { h with previewsCells := h.previewsCells.set a v }

/-- Dereference one EnvVar struct into its observable value. -/
def loadEnvVar (h : Heap) (e : EnvVarH) : Render.EnvVar :=
  { key := e.key
    value := e.value
    generateValue := e.generateValue
    sync := e.sync
    fromDatabase := e.fromDatabase.map fun a => h.fromDb.getD a { name := "", property := "" }
    fromService := e.fromService.map fun a =>
      h.fromSvc.getD a { name := "", type := "", property := none, envVarKey := none }
    fromGroup := e.fromGroup.map fun a => h.strs.getD a ("") }

/-- Dereference an EnvVars slice (a nil slice reads as the empty sequence). -/
def loadEnvVars (h : Heap) : Option Nat → List Render.EnvVar
  | none => []
  | some a => (h.envArrays.getD a []).map (loadEnvVar h)

/-- Observable value of a Service. -/
def loadService (h : Heap) (s : ServiceH) : Render.Service :=
  { name := s.name, type := s.type, runtime := s.runtime, plan := s.plan
    envVars := loadEnvVars h s.envVars }

/-- Observable value of a Database. -/
def loadDatabase (h : Heap) (d : DatabaseH) : Render.Database :=
  { name := d.name, plan := d.plan
    readReplicas := match d.readReplicas with
      | none => []
      | some a => h.replicaArrays.getD a [] }

/-- Observable value of an EnvVarGroup. -/
def loadGroup (h : Heap) (g : EnvVarGroupH) : Render.EnvVarGroup :=
  { name := g.name, envVars := loadEnvVars h g.envVars }

/-- Observable value of a whole Blueprint: the field-by-field snapshot the
spec speaks about. -/
def loadBlueprint (h : Heap) (b : BlueprintH) : Render.Blueprint :=
  { services := b.services.map (loadService h)
    databases := b.databases.map (loadDatabase h)
    envVarGroups := b.envVarGroups.map (loadGroup h)
    previews := b.previews.map fun a => h.previewsCells.getD a { generation := "" }
    previewsExpireAfterDays := b.previewsExpireAfterDays.map fun a => h.intCells.getD a 0 }

/-- Observable value of an optional Blueprint. -/
def loadOpt (h : Heap) : Option BlueprintH → Option Render.Blueprint
  | none => none
  | some b => some (loadBlueprint h b)

/-- The Previews copy step of CopyBlueprint: a non-nil pointer is dereferenced
and a fresh cell allocated for the copy. -/
def copyPreviewsCell (h : Heap) : Option Nat → Option Nat × Heap
  | none => (none, h)
  | some a =>
    (some h.previewsCells.length,
      { h with previewsCells := h.previewsCells ++ [h.previewsCells.getD a { generation := "" }] })

/-- The PreviewsExpireAfterDays copy step of CopyBlueprint. -/
def copyIntCell (h : Heap) : Option Nat → Option Nat × Heap
  | none => (none, h)
  | some a => (some h.intCells.length, { h with intCells := h.intCells ++ [h.intCells.getD a 0] })

/-- CopyBlueprint in the heap model: the three collections are copied with
make+copy, which duplicates the structs but keeps every slice header and
pointer inside them (same array ids, same cell ids); the two singleton cells
are the only heap values duplicated. -/
def copyBlueprintH (h : Heap) : Option BlueprintH → BlueprintH × Heap
  | none => ({}, h)
  | some bp =>
    let pv := copyPreviewsCell h bp.previews
    let ev := copyIntCell pv.2 bp.previewsExpireAfterDays
    ({ services := bp.services, databases := bp.databases, envVarGroups := bp.envVarGroups
       previews := pv.1, previewsExpireAfterDays := ev.1 }, ev.2)

/-- The updateEnvVarReferences loop over the EnvVars of one backing array:
each reference field is dereferenced from the current heap and, when its name
is in the matching kind map, overwritten in place through the pointer. -/
def updateEnvVarRefsH (svcNames dbNames grpNames : List String) (pfx : String) :
    Heap → List EnvVarH → Heap
  | h, [] => h
  | h, e :: rest =>
    let h1 := match e.fromDatabase with
      | none => h
      | some a =>
        let fd := h.fromDb.getD a { name := "", property := "" }
        if dbNames.contains fd.name then h.setFromDb a { fd with name := pfx ++ fd.name } else h
    let h2 := match e.fromService with
      | none => h1
      | some a =>
        let fs := h1.fromSvc.getD a { name := "", type := "", property := none, envVarKey := none }
        if svcNames.contains fs.name then h1.setFromSvc a { fs with name := pfx ++ fs.name } else h1
    let h3 := match e.fromGroup with
      | none => h2
      | some a =>
        let g := h2.strs.getD a ("")
        if grpNames.contains g then h2.setStr a (pfx ++ g) else h2
    updateEnvVarRefsH svcNames dbNames grpNames pfx h3 rest

/-- The pass over all services applying updateEnvVarReferences to each
EnvVars backing array. -/
def updateServiceRefsH (svcNames dbNames grpNames : List String) (pfx : String) :
    Heap → List ServiceH → Heap
  | h, [] => h
  | h, s :: rest =>
    let h1 := match s.envVars with
      | none => h
      | some aid => updateEnvVarRefsH svcNames dbNames grpNames pfx h (h.envArrays.getD aid [])
    updateServiceRefsH svcNames dbNames grpNames pfx h1 rest

/-- The pass over all env groups applying updateEnvVarReferences. -/
def updateGroupRefsH (svcNames dbNames grpNames : List String) (pfx : String) :
    Heap → List EnvVarGroupH → Heap
  | h, [] => h
  | h, g :: rest =>
    let h1 := match g.envVars with
      | none => h
      | some aid => updateEnvVarRefsH svcNames dbNames grpNames pfx h (h.envArrays.getD aid [])
    updateGroupRefsH svcNames dbNames grpNames pfx h1 rest

/-- The read-replica pass: every element of the backing array of each renamed
database is rewritten in place; each element is written exactly once and the
rewrite of an element depends only on that element, the fixed prefix and the
renamed database name, so the element-by-element loop of the source is the map
below. -/
def updateReplicasH (pfx : String) : Heap → List DatabaseH → Heap
  | h, [] => h
  | h, d :: rest =>
    let h1 := match d.readReplicas with
      | none => h
      | some rid =>
        h.setReplicaArray rid ((h.replicaArrays.getD rid []).map (Render.updateReplica pfx d.name))
    updateReplicasH pfx h1 rest

/-- PrefixBlueprint in the heap model: same five passes as the value model,
but the reference and replica rewrites are in-place writes through pointers
and backing arrays that the shallow copy shares with the original. -/
def prefixBlueprintH (h : Heap) (obp : Option BlueprintH) (pfx : String) : BlueprintH × Heap :=
  match obp with
  | none => copyBlueprintH h none
  | some bp =>
    if pfx = "" then copyBlueprintH h (some bp)
    else
      let c0 := copyBlueprintH h (some bp)
      let c := c0.1
      let svcNames := c.services.map ServiceH.name
      let dbNames := c.databases.map DatabaseH.name
      let grpNames := c.envVarGroups.map EnvVarGroupH.name
      let c1 : BlueprintH :=
        { c with
          services := c.services.map fun s => { s with name := Render.renameWith svcNames pfx s.name }
          databases := c.databases.map fun d => { d with name := Render.renameWith dbNames pfx d.name }
          envVarGroups := c.envVarGroups.map fun g =>
            { g with name := Render.renameWith grpNames pfx g.name } }
      let h1 := updateServiceRefsH svcNames dbNames grpNames pfx c0.2 c1.services
      let h2 := updateGroupRefsH svcNames dbNames grpNames pfx h1 c1.envVarGroups
      let h3 := updateReplicasH pfx h2 c1.databases
      (c1, h3)

/-- FindConflicts reads only struct names, never the heap. -/
def findConflictsH (base overlay : BlueprintH) : List String :=
  Render.conflictLoop (fun n => (base.services.map ServiceH.name).contains n)
      (fun n => ("service name conflict: ") ++ n)
      (overlay.services.map ServiceH.name)
    ++ Render.conflictLoop (fun n => (base.databases.map DatabaseH.name).contains n)
      (fun n => ("database name conflict: ") ++ n)
      (overlay.databases.map DatabaseH.name)
    ++ Render.conflictLoop (fun n => (base.envVarGroups.map EnvVarGroupH.name).contains n)
      (fun n => ("environment group name conflict: ") ++ n)
      (overlay.envVarGroups.map EnvVarGroupH.name)

/-- MergeBlueprints in the heap model: the struct values are appended into
fresh top-level arrays and the two singleton pointers are copied as pointers
(the overlay cell id when the overlay sets one); no heap cell is written and
no cell is allocated except through CopyBlueprint in the one-sided cases. -/
def mergeBlueprintsH (h : Heap) : Option BlueprintH → Option BlueprintH → Except String BlueprintH × Heap
  | none, none => (.ok {}, h)
  | none, some o =>
    let c := copyBlueprintH h (some o)
    (.ok c.1, c.2)
  | some b, none =>
    let c := copyBlueprintH h (some b)
    (.ok c.1, c.2)
  | some b, some o =>
    let conflicts := findConflictsH b o
    if conflicts = [] then
      (.ok { services := b.services ++ o.services
             databases := b.databases ++ o.databases
             envVarGroups := b.envVarGroups ++ o.envVarGroups
             previews := if o.previews.isSome then o.previews else b.previews
             previewsExpireAfterDays :=
               if o.previewsExpireAfterDays.isSome then o.previewsExpireAfterDays
               else b.previewsExpireAfterDays }, h)
    else
      (.error (("merge conflicts found: ") ++ String.intercalate (", ") conflicts
        ++ (". Use PrefixBlueprint() to avoid name conflicts before merging")), h)

/-- Well-formedness of the cell addresses of an optional blueprint in a heap:
the two singleton cells are in range (the only stores merge can grow). -/
def cellsWF (h : Heap) : Option BlueprintH → Bool
  | none => true
  | some bp =>
    bp.previews.all (fun a => a < h.previewsCells.length) &&
    bp.previewsExpireAfterDays.all (fun a => a < h.intCells.length)

end RenderH

namespace Render

/-- Services of an optional blueprint (Go len/iteration of a nil document). -/
def servicesOf : Option Blueprint → List Service
  | none => []
  | some bp => bp.services

/-- Databases of an optional blueprint. -/
def databasesOf : Option Blueprint → List Database
  | none => []
  | some bp => bp.databases

/-- Env groups of an optional blueprint. -/
def envVarGroupsOf : Option Blueprint → List EnvVarGroup
  | none => []
  | some bp => bp.envVarGroups

/-- Modelled from the spec wording of claim C4, for comparison with the code:
a reference whose target name is defined in the document for the same kind is
rewritten to the prefixed name, and any other reference keeps the identical
name. -/
def specReferenceRewrite (bp : Blueprint) (pfx : String) (ev : EnvVar) : EnvVar :=
  { ev with
    fromDatabase := ev.fromDatabase.map fun fd =>
      { fd with
        name := if fd.name ∈ bp.databases.map Database.name then pfx ++ fd.name else fd.name }
    fromService := ev.fromService.map fun fs =>
      { fs with
        name := if fs.name ∈ bp.services.map Service.name then pfx ++ fs.name else fs.name }
    fromGroup := ev.fromGroup.map fun g =>
      if g ∈ bp.envVarGroups.map EnvVarGroup.name then pfx ++ g else g }

theorem renameWith_eq_ite (names : List String) (pfx n : String) :
    renameWith names pfx n = if n ∈ names then pfx ++ n else n := by
  simp [renameWith]

theorem conflictLoop_eq (inB : String → Bool) (mk : String → String) (l : List String) :
    conflictLoop inB mk l = (l.filter inB).map mk := by
  induction l with
  | nil => rfl
  | cons n rest ih =>
    by_cases h : inB n <;> simp [conflictLoop, List.filter_cons, h, ih]

/-- C8: FindConflicts reports one description per same-kind name collision, in
deterministic order: all service collisions first, then database collisions,
then env-group collisions, within each kind following the order of the overlay
entries; an absent input document yields the empty sequence, not an error. -/
theorem findConflicts_deterministic_order :
    (∀ b, FindConflicts none b = []) ∧ (∀ a, FindConflicts a none = []) ∧
    (∀ base overlay,
      FindConflicts (some base) (some overlay) =
        ((overlay.services.map Service.name).filter
            (fun n => (base.services.map Service.name).contains n)).map
          (fun n => ("service name conflict: ") ++ n)
        ++ ((overlay.databases.map Database.name).filter
            (fun n => (base.databases.map Database.name).contains n)).map
          (fun n => ("database name conflict: ") ++ n)
        ++ ((overlay.envVarGroups.map EnvVarGroup.name).filter
            (fun n => (base.envVarGroups.map EnvVarGroup.name).contains n)).map
          (fun n => ("environment group name conflict: ") ++ n)) := by
  refine ⟨fun _ => rfl, fun a => ?_, fun base overlay => ?_⟩
  · cases a <;> rfl
  · simp only [FindConflicts, conflictLoop_eq]

/-- C3: MergeBlueprints fails exactly when FindConflicts is non-empty, and a
successful merge concatenates every collection with the base entries first in
their original order, so each result collection length is the sum of the two
input lengths. -/
theorem merge_error_iff_conflicts (a b : Option Blueprint) :
    ((∃ e, MergeBlueprints a b = .error e) ↔ FindConflicts a b ≠ []) ∧
    (∀ m, MergeBlueprints a b = .ok m →
      m.services = servicesOf a ++ servicesOf b ∧
      m.databases = databasesOf a ++ databasesOf b ∧
      m.envVarGroups = envVarGroupsOf a ++ envVarGroupsOf b ∧
      m.services.length = (servicesOf a).length + (servicesOf b).length ∧
      m.databases.length = (databasesOf a).length + (databasesOf b).length ∧
      m.envVarGroups.length = (envVarGroupsOf a).length + (envVarGroupsOf b).length) := by
  match a, b with
  | none, none =>
    refine ⟨by simp [MergeBlueprints, FindConflicts], fun m hm => ?_⟩
    simp only [MergeBlueprints, Except.ok.injEq] at hm
    subst hm
    simp [servicesOf, databasesOf, envVarGroupsOf]
  | none, some overlay =>
    refine ⟨by simp [MergeBlueprints, FindConflicts], fun m hm => ?_⟩
    simp only [MergeBlueprints, CopyBlueprint, Except.ok.injEq] at hm
    subst hm
    simp [servicesOf, databasesOf, envVarGroupsOf]
  | some base, none =>
    refine ⟨by simp [MergeBlueprints, FindConflicts], fun m hm => ?_⟩
    simp only [MergeBlueprints, CopyBlueprint, Except.ok.injEq] at hm
    subst hm
    simp [servicesOf, databasesOf, envVarGroupsOf]
  | some base, some overlay =>
    by_cases hc : FindConflicts (some base) (some overlay) = []
    · refine ⟨by simp [MergeBlueprints, hc], fun m hm => ?_⟩
      simp only [MergeBlueprints, hc, if_pos, Except.ok.injEq] at hm
      subst hm
      simp [servicesOf, databasesOf, envVarGroupsOf]
    · refine ⟨by simp [MergeBlueprints, hc], fun m hm => ?_⟩
      simp [MergeBlueprints, hc] at hm

/-- C7: on conflict-free documents the merge sets each optional singleton to
the overlay value whenever the overlay specifies one and otherwise keeps the
base value; with both preview policies set the result carries the overlay
policy. -/
theorem merge_overlay_precedence (a b : Blueprint)
    (hc : FindConflicts (some a) (some b) = []) :
    ∀ m, MergeBlueprints (some a) (some b) = .ok m →
      m.previews = (if b.previews.isSome then b.previews else a.previews) ∧
      m.previewsExpireAfterDays =
        (if b.previewsExpireAfterDays.isSome then b.previewsExpireAfterDays
         else a.previewsExpireAfterDays) := by
  intro m hm
  simp only [MergeBlueprints, hc, if_pos, Except.ok.injEq] at hm
  subst hm
  exact ⟨rfl, rfl⟩

end Render

namespace Render

/-- Shared shape lemma: with a non-empty prefix, the defined names of the
result are the original names sent through the per-kind rename maps. -/
theorem prefixBlueprint_names (bp : Blueprint) (pfx : String) (hp : pfx ≠ "") :
    (PrefixBlueprint (some bp) pfx).services.map Service.name
        = bp.services.map (fun s => renameWith (bp.services.map Service.name) pfx s.name) ∧
    (PrefixBlueprint (some bp) pfx).databases.map Database.name
        = bp.databases.map (fun d => renameWith (bp.databases.map Database.name) pfx d.name) ∧
    (PrefixBlueprint (some bp) pfx).envVarGroups.map EnvVarGroup.name
        = bp.envVarGroups.map
            (fun g => renameWith (bp.envVarGroups.map EnvVarGroup.name) pfx g.name) := by
  simp only [PrefixBlueprint, if_neg hp]
  refine ⟨?_, ?_, ?_⟩ <;> simp [List.map_map, Function.comp]

/-- C5: with a non-empty prefix and no empty defined name, every defined
service, database and env-group name of the result is the prefix prepended to
the original name.  The closed form depends only on the prefix and the
original name of the entity itself, hence the result is independent of the
order in which the three kinds are processed. -/
theorem prefix_idempotent_naming (bp : Blueprint) (pfx : String) (hp : pfx ≠ "")
    (_hs : ("") ∉ bp.services.map Service.name)
    (_hd : ("") ∉ bp.databases.map Database.name)
    (_hg : ("") ∉ bp.envVarGroups.map EnvVarGroup.name) :
    (PrefixBlueprint (some bp) pfx).services.map Service.name
        = bp.services.map (fun s => pfx ++ s.name) ∧
    (PrefixBlueprint (some bp) pfx).databases.map Database.name
        = bp.databases.map (fun d => pfx ++ d.name) ∧
    (PrefixBlueprint (some bp) pfx).envVarGroups.map EnvVarGroup.name
        = bp.envVarGroups.map (fun g => pfx ++ g.name) := by
  obtain ⟨h1, h2, h3⟩ := prefixBlueprint_names bp pfx hp
  refine ⟨?_, ?_, ?_⟩
  · rw [h1]
    refine List.map_congr_left fun s hsm => ?_
    rw [renameWith_eq_ite, if_pos (List.mem_map_of_mem Service.name hsm)]
  · rw [h2]
    refine List.map_congr_left fun d hdm => ?_
    rw [renameWith_eq_ite, if_pos (List.mem_map_of_mem Database.name hdm)]
  · rw [h3]
    refine List.map_congr_left fun g hgm => ?_
    rw [renameWith_eq_ite, if_pos (List.mem_map_of_mem EnvVarGroup.name hgm)]

/-- C5 witness: the naming property instantiated at a concrete document. -/
theorem prefix_idempotent_naming_witness :
    (PrefixBlueprint
        (some { services := [{ name := "api", type := "web", runtime := none, plan := none,
                               envVars := [] }]
                databases := [{ name := "main-db", plan := none, readReplicas := [] }]
                envVarGroups := [{ name := "shared", envVars := [] }] })
        ("prod-")).services.map Service.name = [("prod-api")] ∧
    (PrefixBlueprint
        (some { services := [{ name := "api", type := "web", runtime := none, plan := none,
                               envVars := [] }]
                databases := [{ name := "main-db", plan := none, readReplicas := [] }]
                envVarGroups := [{ name := "shared", envVars := [] }] })
        ("prod-")).databases.map Database.name = [("prod-main-db")] ∧
    (PrefixBlueprint
        (some { services := [{ name := "api", type := "web", runtime := none, plan := none,
                               envVars := [] }]
                databases := [{ name := "main-db", plan := none, readReplicas := [] }]
                envVarGroups := [{ name := "shared", envVars := [] }] })
        ("prod-")).envVarGroups.map EnvVarGroup.name = [("prod-shared")] := by
  have h := prefix_idempotent_naming
    { services := [{ name := "api", type := "web", runtime := none, plan := none, envVars := [] }]
      databases := [{ name := "main-db", plan := none, readReplicas := [] }]
      envVarGroups := [{ name := "shared", envVars := [] }] }
    ("prod-") (by decide) (by decide) (by decide) (by decide)
  obtain ⟨h1, h2, h3⟩ := h
  refine ⟨?_, ?_, ?_⟩
  · rw [h1]; rfl
  · rw [h2]; rfl
  · rw [h3]; rfl

/-- C10: a defined entity whose name is the empty string participates in the
rename maps like any other name and is renamed to the prefix itself. -/
theorem prefix_empty_name_becomes_pfx (bp : Blueprint) (pfx : String) (hp : pfx ≠ "") :
    (∀ (i : Nat) (sv : Service), bp.services[i]? = some sv → sv.name = "" →
      ((PrefixBlueprint (some bp) pfx).services.map Service.name)[i]? = some pfx) ∧
    (∀ (i : Nat) (d : Database), bp.databases[i]? = some d → d.name = "" →
      ((PrefixBlueprint (some bp) pfx).databases.map Database.name)[i]? = some pfx) ∧
    (∀ (i : Nat) (g : EnvVarGroup), bp.envVarGroups[i]? = some g → g.name = "" →
      ((PrefixBlueprint (some bp) pfx).envVarGroups.map EnvVarGroup.name)[i]? = some pfx) := by
  obtain ⟨h1, h2, h3⟩ := prefixBlueprint_names bp pfx hp
  refine ⟨?_, ?_, ?_⟩
  · intro i sv hi hname
    have hm : ("") ∈ bp.services.map Service.name :=
      hname ▸ List.mem_map_of_mem Service.name (List.getElem?_mem hi)
    rw [h1, List.getElem?_map, hi, Option.map_some', hname, renameWith_eq_ite, if_pos hm]
    simp
  · intro i d hi hname
    have hm : ("") ∈ bp.databases.map Database.name :=
      hname ▸ List.mem_map_of_mem Database.name (List.getElem?_mem hi)
    rw [h2, List.getElem?_map, hi, Option.map_some', hname, renameWith_eq_ite, if_pos hm]
    simp
  · intro i g hi hname
    have hm : ("") ∈ bp.envVarGroups.map EnvVarGroup.name :=
      hname ▸ List.mem_map_of_mem EnvVarGroup.name (List.getElem?_mem hi)
    rw [h3, List.getElem?_map, hi, Option.map_some', hname, renameWith_eq_ite, if_pos hm]
    simp

/-- C10 witness: an empty-named service, database and env group each become
exactly the prefix. -/
theorem prefix_empty_name_becomes_pfx_witness :
    ((PrefixBlueprint
        (some { services := [{ name := "", type := "web", runtime := none, plan := none,
                               envVars := [] }]
                databases := [{ name := "", plan := none, readReplicas := [] }]
                envVarGroups := [{ name := "", envVars := [] }] })
        ("p-")).services.map Service.name)[0]? = some ("p-") ∧
    ((PrefixBlueprint
        (some { services := [{ name := "", type := "web", runtime := none, plan := none,
                               envVars := [] }]
                databases := [{ name := "", plan := none, readReplicas := [] }]
                envVarGroups := [{ name := "", envVars := [] }] })
        ("p-")).databases.map Database.name)[0]? = some ("p-") ∧
    ((PrefixBlueprint
        (some { services := [{ name := "", type := "web", runtime := none, plan := none,
                               envVars := [] }]
                databases := [{ name := "", plan := none, readReplicas := [] }]
                envVarGroups := [{ name := "", envVars := [] }] })
        ("p-")).envVarGroups.map EnvVarGroup.name)[0]? = some ("p-") := by
  have h := prefix_empty_name_becomes_pfx
    { services := [{ name := "", type := "web", runtime := none, plan := none, envVars := [] }]
      databases := [{ name := "", plan := none, readReplicas := [] }]
      envVarGroups := [{ name := "", envVars := [] }] }
    ("p-") (by decide)
  exact ⟨h.1 0 _ rfl rfl, h.2.1 0 _ rfl rfl, h.2.2 0 _ rfl rfl⟩

/-- Pointwise agreement of the source reference rewrite with the rewrite the
spec describes, when the kind maps are the defined-name lists of bp. -/
theorem updateEnvVarReferences_eq_spec (bp : Blueprint) (pfx : String) (ev : EnvVar) :
    updateEnvVarReferences (bp.services.map Service.name) (bp.databases.map Database.name)
        (bp.envVarGroups.map EnvVarGroup.name) pfx ev
      = specReferenceRewrite bp pfx ev := by
  simp [updateEnvVarReferences, specReferenceRewrite, renameWith_eq_ite]

/-- C4: every EnvVar reference to a name defined in the document for the same
kind is rewritten to the prefixed name, and every reference to an undefined
name keeps the identical name, both inside services and inside env groups. -/
theorem prefix_reference_rewrite (bp : Blueprint) (pfx : String) (hp : pfx ≠ "") :
    (PrefixBlueprint (some bp) pfx).services.map Service.envVars
        = bp.services.map (fun s => s.envVars.map (specReferenceRewrite bp pfx)) ∧
    (PrefixBlueprint (some bp) pfx).envVarGroups.map EnvVarGroup.envVars
        = bp.envVarGroups.map (fun g => g.envVars.map (specReferenceRewrite bp pfx)) := by
  constructor <;>
  · simp only [PrefixBlueprint, if_neg hp]
    simp [List.map_map, Function.comp, updateEnvVarReferences_eq_spec]

/-- C4 witness: one internal database reference is rewritten, one external
database reference and one external group reference are untouched. -/
theorem prefix_reference_rewrite_witness :
    (PrefixBlueprint
        (some { services := [{ name := "api", type := "web", runtime := none, plan := none,
                               envVars :=
                                 [{ key := some ("DB_URL"), value := none, generateValue := none,
                                    sync := none,
                                    fromDatabase := some { name := "main-db",
                                                           property := "connectionString" },
                                    fromService := none, fromGroup := none },
                                  { key := some ("EXT"), value := none, generateValue := none,
                                    sync := none,
                                    fromDatabase := some { name := "external-db",
                                                           property := "connectionString" },
                                    fromService := none, fromGroup := some ("ext-group") }] }]
                databases := [{ name := "main-db", plan := none, readReplicas := [] }] })
        ("prod-")).services.map Service.envVars
      = [[{ key := some ("DB_URL"), value := none, generateValue := none, sync := none,
            fromDatabase := some { name := "prod-main-db", property := "connectionString" },
            fromService := none, fromGroup := none },
          { key := some ("EXT"), value := none, generateValue := none, sync := none,
            fromDatabase := some { name := "external-db", property := "connectionString" },
            fromService := none, fromGroup := some ("ext-group") }]] := by
  have h := (prefix_reference_rewrite
    { services := [{ name := "api", type := "web", runtime := none, plan := none,
                     envVars :=
                       [{ key := some ("DB_URL"), value := none, generateValue := none,
                          sync := none,
                          fromDatabase := some { name := "main-db",
                                                 property := "connectionString" },
                          fromService := none, fromGroup := none },
                        { key := some ("EXT"), value := none, generateValue := none,
                          sync := none,
                          fromDatabase := some { name := "external-db",
                                                 property := "connectionString" },
                          fromService := none, fromGroup := some ("ext-group") }] }]
      databases := [{ name := "main-db", plan := none, readReplicas := [] }] }
    ("prod-") (by decide)).1
  rw [h]
  decide

/-- C2: the replica-rename step does not do what the claim states.  With
database main-db, replica main-db-replica and prefix prod-, the replica name
begins with the pre-rename database name main-db, yet it is left unchanged,
because the source slices len(prefix) characters off the end of the renamed
name (yielding prod-ma) instead of off its beginning.  Conversely a replica
named prod-max, which does not begin with main-db, is rewritten to
prod-main-dbx. -/
theorem prefix_replica_step_diverges :
    (PrefixBlueprint
        (some { databases := [{ name := "main-db", plan := none,
                                readReplicas := [{ name := "main-db-replica" }] }] })
        ("prod-")).databases
      = [{ name := "prod-main-db", plan := none,
           readReplicas := [{ name := "main-db-replica" }] }] ∧
    (PrefixBlueprint
        (some { databases := [{ name := "main-db", plan := none,
                                readReplicas := [{ name := "prod-max" }] }] })
        ("prod-")).databases
      = [{ name := "prod-main-db", plan := none,
           readReplicas := [{ name := "prod-main-dbx" }] }] := by
  constructor <;> decide

end Render

namespace Render

theorem append_data_take (pre x : String) :
    ((pre ++ x).data.take pre.data.length) = pre.data := by
  rw [String.data_append]
  exact List.take_left _ _

theorem append_ne_of_take_ne (pre x t : String)
    (h : t.data.take pre.data.length ≠ pre.data) : pre ++ x ≠ t := by
  intro he
  exact h (he ▸ append_data_take pre x)

theorem string_append_cancel_left (pre a b : String) (h : pre ++ a = pre ++ b) : a = b := by
  apply String.ext
  have hd := congrArg String.data h
  rw [String.data_append, String.data_append] at hd
  exact List.append_cancel_left hd

theorem dupLoop_mem_shape (mk : String → String) :
    ∀ (names seen : List String) (x : String),
      x ∈ dupLoop mk seen names → ∃ n, x = mk n := by
  intro names
  induction names with
  | nil => intro seen x hx; simp [dupLoop] at hx
  | cons n rest ih =>
    intro seen x hx
    simp only [dupLoop, List.mem_append] at hx
    rcases hx with hx | hx
    · by_cases hc : seen.contains n = true
      · rw [if_pos hc] at hx
        simp only [List.mem_singleton] at hx
        exact ⟨n, hx⟩
      · rw [if_neg hc] at hx
        simp at hx
    · exact ih (n :: seen) x hx

theorem dupLoop_count (mk : String → String) (hinj : ∀ x y, mk x = mk y → x = y) (t : String) :
    ∀ (names seen : List String),
      (dupLoop mk seen names).count (mk t)
        = if t ∈ seen then names.count t else names.count t - 1 := by
  intro names
  induction names with
  | nil => intro seen; by_cases h : t ∈ seen <;> simp [dupLoop, h]
  | cons n rest ih =>
    intro seen
    have hhead : ∀ c : Bool, ((if c = true then [mk n] else []) : List String).count (mk t)
        = if c = true ∧ n = t then 1 else 0 := by
      intro c
      cases c with
      | false => simp
      | true =>
        by_cases hnt : n = t
        · simp [hnt, List.count_cons]
        · have : ¬ mk n = mk t := fun hc => hnt (hinj n t hc)
          simp [List.count_cons, this, hnt]
    have hrec := ih (n :: seen)
    simp only [dupLoop, List.count_append, hhead, hrec]
    by_cases hnt : n = t
    · subst hnt
      by_cases hts : n ∈ seen
      · simp [hts, List.count_cons]
        omega
      · have h1 : n ∈ n :: seen := List.mem_cons_self n seen
        simp [hts, h1, List.count_cons]
    · have hiff : t ∈ n :: seen ↔ t ∈ seen := by
        constructor
        · intro h; rcases List.mem_cons.mp h with h | h
          · exact absurd h.symm hnt
          · exact h
        · exact fun h => List.mem_cons_of_mem n h
      have hcnt : (n :: rest).count t = rest.count t := by
        simp [List.count_cons, hnt]
      by_cases hts : t ∈ seen <;> simp [hts, hiff, hcnt, hnt]

theorem serviceFieldErrors_mem :
    ∀ (l : List Service) (x : String), x ∈ serviceFieldErrors l →
      x = ("service missing name") ∨
      (∃ n, x = ("service ") ++ (n ++ (" missing type"))) ∨
      (∃ n, x = ("service ") ++ (n ++ (" missing runtime"))) := by
  intro l
  induction l with
  | nil => intro x hx; simp [serviceFieldErrors] at hx
  | cons s rest ih =>
    intro x hx
    simp only [serviceFieldErrors, List.mem_append] at hx
    rcases hx with ((hx | hx) | hx) | hx
    · left
      rcases Decidable.em (s.name = "") with h | h
      · rw [if_pos h] at hx; simpa using hx
      · rw [if_neg h] at hx; simp at hx
    · right; left
      rcases Decidable.em (s.type = "") with h | h
      · rw [if_pos h] at hx
        simp only [List.mem_singleton] at hx
        exact ⟨s.name, by rw [hx, String.append_assoc]⟩
      · rw [if_neg h] at hx; simp at hx
    · right; right
      rcases Decidable.em (s.runtime = none ∧ s.type ≠ ServiceTypeKeyValue) with h | h
      · rw [if_pos h] at hx
        simp only [List.mem_singleton] at hx
        exact ⟨s.name, by rw [hx, String.append_assoc]⟩
      · rw [if_neg h] at hx; simp at hx
    · exact ih x hx

theorem databaseFieldErrors_mem :
    ∀ (l : List Database) (x : String), x ∈ databaseFieldErrors l →
      x = ("database missing name") := by
  intro l
  induction l with
  | nil => intro x hx; simp [databaseFieldErrors] at hx
  | cons d rest ih =>
    intro x hx
    simp only [databaseFieldErrors, List.mem_append] at hx
    rcases hx with hx | hx
    · rcases Decidable.em (d.name = "") with h | h
      · rw [if_pos h] at hx; simpa using hx
      · rw [if_neg h] at hx; simp at hx
    · exact ih x hx

theorem envGroupFieldErrors_mem :
    ∀ (l : List EnvVarGroup) (x : String), x ∈ envGroupFieldErrors l →
      x = ("environment group missing name") := by
  intro l
  induction l with
  | nil => intro x hx; simp [envGroupFieldErrors] at hx
  | cons g rest ih =>
    intro x hx
    simp only [envGroupFieldErrors, List.mem_append] at hx
    rcases hx with hx | hx
    · rcases Decidable.em (g.name = "") with h | h
      · rw [if_pos h] at hx; simpa using hx
      · rw [if_neg h] at hx; simp at hx
    · exact ih x hx

end Render

namespace Render

/-- C9: a document with exactly two services named svc yields exactly one
defect entry reporting svc as a duplicate service name, whatever other defects
of any kind are also reported. -/
theorem validator_duplicate_service_unique (bp : Blueprint)
    (h2 : (bp.services.map Service.name).count ("svc") = 2) :
    (ValidateBlueprint (some bp)).count ("duplicate service name: svc") = 1 := by
  have zero_of_ne : ∀ (l : List String),
      (∀ x ∈ l, x ≠ ("duplicate service name: svc")) →
      l.count ("duplicate service name: svc") = 0 := by
    intro l h
    exact List.count_eq_zero.mpr (fun hm => h _ hm rfl)
  have c1 : (dupLoop (fun n => ("duplicate service name: ") ++ n) []
      (bp.services.map Service.name)).count ("duplicate service name: svc") = 1 := by
    have hs : ("duplicate service name: svc" : String)
        = ("duplicate service name: ") ++ ("svc") := rfl
    rw [hs, dupLoop_count (fun n => ("duplicate service name: ") ++ n)
      (fun x y hxy => string_append_cancel_left _ x y hxy) ("svc")
      (bp.services.map Service.name) []]
    simp [h2]
  have c2 : (dupLoop (fun n => ("duplicate database name: ") ++ n) []
      (bp.databases.map Database.name)).count ("duplicate service name: svc") = 0 := by
    refine zero_of_ne _ fun x hx => ?_
    obtain ⟨n, hn⟩ := dupLoop_mem_shape _ _ _ _ hx
    rw [hn]
    exact append_ne_of_take_ne _ _ _ (by decide)
  have c3 : (dupLoop (fun n => ("duplicate environment group name: ") ++ n) []
      (bp.envVarGroups.map EnvVarGroup.name)).count ("duplicate service name: svc") = 0 := by
    refine zero_of_ne _ fun x hx => ?_
    obtain ⟨n, hn⟩ := dupLoop_mem_shape _ _ _ _ hx
    rw [hn]
    exact append_ne_of_take_ne _ _ _ (by decide)
  have c4 : (serviceFieldErrors bp.services).count ("duplicate service name: svc") = 0 := by
    refine zero_of_ne _ fun x hx => ?_
    rcases serviceFieldErrors_mem _ _ hx with h | ⟨n, hn⟩ | ⟨n, hn⟩
    · rw [h]; decide
    · rw [hn]; exact append_ne_of_take_ne _ _ _ (by decide)
    · rw [hn]; exact append_ne_of_take_ne _ _ _ (by decide)
  have c5 : (databaseFieldErrors bp.databases).count ("duplicate service name: svc") = 0 := by
    refine zero_of_ne _ fun x hx => ?_
    rw [databaseFieldErrors_mem _ _ hx]; decide
  have c6 : (envGroupFieldErrors bp.envVarGroups).count ("duplicate service name: svc") = 0 := by
    refine zero_of_ne _ fun x hx => ?_
    rw [envGroupFieldErrors_mem _ _ hx]; decide
  simp only [ValidateBlueprint, List.count_append, c1, c2, c3, c4, c5, c6]

/-- C9 witness: two services named svc among other defects (one also misses
its runtime, a database and a group have empty names) still yield exactly one
duplicate-service entry for svc. -/
theorem validator_duplicate_service_unique_witness :
    (ValidateBlueprint
        (some { services := [{ name := "svc", type := "web", runtime := none, plan := none,
                               envVars := [] },
                             { name := "svc", type := "", runtime := none, plan := none,
                               envVars := [] }]
                databases := [{ name := "", plan := none, readReplicas := [] }]
                envVarGroups := [{ name := "", envVars := [] }] })).count
      ("duplicate service name: svc") = 1 :=
  validator_duplicate_service_unique
    { services := [{ name := "svc", type := "web", runtime := none, plan := none, envVars := [] },
                   { name := "svc", type := "", runtime := none, plan := none, envVars := [] }]
      databases := [{ name := "", plan := none, readReplicas := [] }]
      envVarGroups := [{ name := "", envVars := [] }] }
    (by decide)

end Render

namespace RenderH

theorem getD_append_left {α : Type} (l l2 : List α) (d : α) (n : Nat) (hn : n < l.length) :
    (l ++ l2).getD n d = l.getD n d := by
  simp only [List.getD, List.get?_eq_getElem?]
  rw [List.getElem?_append_left hn]

theorem copyPreviewsCell_heap (h : Heap) (o : Option Nat) :
    ∃ l, (copyPreviewsCell h o).2 = { h with previewsCells := h.previewsCells ++ l } := by
  cases o with
  | none => exact ⟨[], by simp [copyPreviewsCell]⟩
  | some a => exact ⟨_, rfl⟩

theorem copyIntCell_heap (h : Heap) (o : Option Nat) :
    ∃ l, (copyIntCell h o).2 = { h with intCells := h.intCells ++ l } := by
  cases o with
  | none => exact ⟨[], by simp [copyIntCell]⟩
  | some a => exact ⟨_, rfl⟩

theorem copyBlueprintH_heap (h : Heap) (o : Option BlueprintH) :
    ∃ lp li, (copyBlueprintH h o).2
      = { h with previewsCells := h.previewsCells ++ lp, intCells := h.intCells ++ li } := by
  cases o with
  | none => exact ⟨[], [], by simp [copyBlueprintH]⟩
  | some bp =>
    obtain ⟨lp, hp⟩ := copyPreviewsCell_heap h bp.previews
    obtain ⟨li, hi⟩ :=
      copyIntCell_heap (copyPreviewsCell h bp.previews).2 bp.previewsExpireAfterDays
    refine ⟨lp, li, ?_⟩
    show (copyIntCell (copyPreviewsCell h bp.previews).2 bp.previewsExpireAfterDays).2 = _
    rw [hi, hp]

theorem loadEnvVar_congr (h h2 : Heap) (e : EnvVarH)
    (e1 : h2.fromDb = h.fromDb) (e2 : h2.fromSvc = h.fromSvc) (e3 : h2.strs = h.strs) :
    loadEnvVar h2 e = loadEnvVar h e := by
  simp [loadEnvVar, e1, e2, e3]

theorem loadEnvVars_congr (h h2 : Heap) (v : Option Nat)
    (e1 : h2.fromDb = h.fromDb) (e2 : h2.fromSvc = h.fromSvc) (e3 : h2.strs = h.strs)
    (e4 : h2.envArrays = h.envArrays) :
    loadEnvVars h2 v = loadEnvVars h v := by
  cases v with
  | none => rfl
  | some a =>
    simp only [loadEnvVars, e4]
    exact List.map_congr_left fun x _ => loadEnvVar_congr h h2 x e1 e2 e3

theorem loadBlueprint_extend (h h2 : Heap) (bp : BlueprintH)
    (e1 : h2.fromDb = h.fromDb) (e2 : h2.fromSvc = h.fromSvc) (e3 : h2.strs = h.strs)
    (e4 : h2.envArrays = h.envArrays) (e5 : h2.replicaArrays = h.replicaArrays)
    (lp : List Render.Previews) (hp : h2.previewsCells = h.previewsCells ++ lp)
    (li : List Int) (hi : h2.intCells = h.intCells ++ li)
    (w1 : ∀ a, bp.previews = some a → a < h.previewsCells.length)
    (w2 : ∀ a, bp.previewsExpireAfterDays = some a → a < h.intCells.length) :
    loadBlueprint h2 bp = loadBlueprint h bp := by
  unfold loadBlueprint
  have hsvc : bp.services.map (loadService h2) = bp.services.map (loadService h) :=
    List.map_congr_left fun s _ => by
      simp only [loadService]
      rw [loadEnvVars_congr h h2 s.envVars e1 e2 e3 e4]
  have hdb : bp.databases.map (loadDatabase h2) = bp.databases.map (loadDatabase h) :=
    List.map_congr_left fun d _ => by
      simp only [loadDatabase, e5]
  have hgrp : bp.envVarGroups.map (loadGroup h2) = bp.envVarGroups.map (loadGroup h) :=
    List.map_congr_left fun g _ => by
      simp only [loadGroup]
      rw [loadEnvVars_congr h h2 g.envVars e1 e2 e3 e4]
  have hpv : (bp.previews.map fun a => h2.previewsCells.getD a { generation := "" })
      = bp.previews.map fun a => h.previewsCells.getD a { generation := "" } := by
    cases hbp : bp.previews with
    | none => rfl
    | some a =>
      have ha := w1 a hbp
      rw [Option.map_some', Option.map_some', hp, getD_append_left _ _ _ _ ha]
  have hin : (bp.previewsExpireAfterDays.map fun a => h2.intCells.getD a 0)
      = bp.previewsExpireAfterDays.map fun a => h.intCells.getD a 0 := by
    cases hbp : bp.previewsExpireAfterDays with
    | none => rfl
    | some a =>
      have ha := w2 a hbp
      rw [Option.map_some', Option.map_some', hi, getD_append_left _ _ _ _ ha]
  rw [hsvc, hdb, hgrp, hpv, hin]

theorem mergeBlueprintsH_heap_both (h : Heap) (b o : BlueprintH) :
    (mergeBlueprintsH h (some b) (some o)).2 = h := by
  by_cases hc : findConflictsH b o = [] <;> simp [mergeBlueprintsH, hc]

/-- C6 amended, part proved: MergeBlueprints performs no write through any
structure reachable from its inputs, so the observable value of base and of
overlay is unchanged by the call. -/
theorem merge_no_input_mutation (h : Heap) (b o : Option BlueprintH)
    (wb : cellsWF h b = true) (wo : cellsWF h o = true) :
    loadOpt (mergeBlueprintsH h b o).2 b = loadOpt h b ∧
    loadOpt (mergeBlueprintsH h b o).2 o = loadOpt h o := by
  have extend_load : ∀ (bp : BlueprintH), cellsWF h (some bp) = true →
      ∀ (h2 : Heap), (∃ lp li, h2
          = { h with previewsCells := h.previewsCells ++ lp, intCells := h.intCells ++ li }) →
        loadBlueprint h2 bp = loadBlueprint h bp := by
    intro bp wf h2 hex
    obtain ⟨lp, li, heq⟩ := hex
    subst heq
    refine loadBlueprint_extend h _ bp rfl rfl rfl rfl rfl lp rfl li rfl ?_ ?_
    · intro a ha
      rw [cellsWF, ha] at wf
      simp at wf
      exact wf.1
    · intro a ha
      rw [cellsWF, ha] at wf
      simp at wf
      exact wf.2
  match b, o with
  | none, none => exact ⟨rfl, rfl⟩
  | none, some ob =>
    refine ⟨rfl, ?_⟩
    have hmerge : (mergeBlueprintsH h none (some ob)).2 = (copyBlueprintH h (some ob)).2 := rfl
    rw [loadOpt, loadOpt, hmerge,
      extend_load ob wo (copyBlueprintH h (some ob)).2 (copyBlueprintH_heap h (some ob))]
  | some bb, none =>
    refine ⟨?_, rfl⟩
    have hmerge : (mergeBlueprintsH h (some bb) none).2 = (copyBlueprintH h (some bb)).2 := rfl
    rw [loadOpt, loadOpt, hmerge,
      extend_load bb wb (copyBlueprintH h (some bb)).2 (copyBlueprintH_heap h (some bb))]
  | some bb, some ob =>
    rw [mergeBlueprintsH_heap_both h bb ob]
    exact ⟨rfl, rfl⟩

/-- C6 amended witness: the non-mutation of merge instantiated at concrete
inputs that set both singleton cells. -/
theorem merge_no_input_mutation_witness :
    loadOpt (mergeBlueprintsH
        { previewsCells := [{ generation := "automatic" }], intCells := [30] }
        (some { previews := some 0, previewsExpireAfterDays := some 0 })
        (some {})).2
      (some { previews := some 0, previewsExpireAfterDays := some 0 })
      = loadOpt { previewsCells := [{ generation := "automatic" }], intCells := [30] }
        (some { previews := some 0, previewsExpireAfterDays := some 0 }) ∧
    loadOpt (mergeBlueprintsH
        { previewsCells := [{ generation := "automatic" }], intCells := [30] }
        (some { previews := some 0, previewsExpireAfterDays := some 0 })
        (some {})).2
      (some {})
      = loadOpt { previewsCells := [{ generation := "automatic" }], intCells := [30] }
        (some {}) :=
  merge_no_input_mutation
    { previewsCells := [{ generation := "automatic" }], intCells := [30] }
    (some { previews := some 0, previewsExpireAfterDays := some 0 })
    (some {}) (by decide) (by decide)

/-- C6 counterexample: the merged document shares the overlay Previews cell
(the result carries the very cell address the overlay holds), so a later
write through the result changes the observable value of the overlay input —
the result does share mutable sub-structure with its inputs. -/
theorem merge_result_shares_previews_cell :
    (mergeBlueprintsH { previewsCells := [{ generation := "automatic" }] }
        (some {}) (some { previews := some 0 })).1
      = .ok { services := [], databases := [], envVarGroups := [],
              previews := some 0, previewsExpireAfterDays := none } ∧
    loadBlueprint
        (Heap.setPreviewsCell { previewsCells := [{ generation := "automatic" }] } 0
          { generation := "none" })
        { previews := some 0 }
      ≠ loadBlueprint { previewsCells := [{ generation := "automatic" }] }
        { previews := some 0 } := by
  constructor
  · rfl
  · decide

/-- C1: PrefixBlueprint mutates its input.  At a document whose service holds
an EnvVar referencing its own database, the shallow copy shares the
FromDatabase cell with the original, and the reference rewrite overwrites that
cell, so after the call the pre-call handle observes a changed document: its
EnvVar now references prod-main-db instead of main-db. -/
theorem prefix_mutates_original :
    loadBlueprint
        (prefixBlueprintH
          { fromDb := [{ name := "main-db", property := "connectionString" }]
            envArrays := [[{ key := some ("DATABASE_URL"), value := none, generateValue := none,
                             sync := none, fromDatabase := some 0, fromService := none,
                             fromGroup := none }]] }
          (some { services := [{ name := "api", type := "web", runtime := none, plan := none,
                                 envVars := some 0 }]
                  databases := [{ name := "main-db", plan := none, readReplicas := none }] })
          ("prod-")).2
        { services := [{ name := "api", type := "web", runtime := none, plan := none,
                         envVars := some 0 }]
          databases := [{ name := "main-db", plan := none, readReplicas := none }] }
      ≠ loadBlueprint
        { fromDb := [{ name := "main-db", property := "connectionString" }]
          envArrays := [[{ key := some ("DATABASE_URL"), value := none, generateValue := none,
                           sync := none, fromDatabase := some 0, fromService := none,
                           fromGroup := none }]] }
        { services := [{ name := "api", type := "web", runtime := none, plan := none,
                         envVars := some 0 }]
          databases := [{ name := "main-db", plan := none, readReplicas := none }] } ∧
    (prefixBlueprintH
        { fromDb := [{ name := "main-db", property := "connectionString" }]
          envArrays := [[{ key := some ("DATABASE_URL"), value := none, generateValue := none,
                           sync := none, fromDatabase := some 0, fromService := none,
                           fromGroup := none }]] }
        (some { services := [{ name := "api", type := "web", runtime := none, plan := none,
                               envVars := some 0 }]
                databases := [{ name := "main-db", plan := none, readReplicas := none }] })
        ("prod-")).2.fromDb
      = [{ name := "prod-main-db", property := "connectionString" }] := by
  constructor
  · decide
  · decide

end RenderH

namespace Render

/-- C7 witness: with both preview singletons set on both sides, the merged
document carries the overlay values. -/
theorem merge_overlay_precedence_witness :
    ({ services := [], databases := [], envVarGroups := [],
       previews := some { generation := "none" },
       previewsExpireAfterDays := some (7 : Int) } : Blueprint).previews
      = (if (some { generation := "none" } : Option Previews).isSome then
           (some ({ generation := "none" } : Previews))
         else (some ({ generation := "automatic" } : Previews))) ∧
    ({ services := [], databases := [], envVarGroups := [],
       previews := some { generation := "none" },
       previewsExpireAfterDays := some (7 : Int) } : Blueprint).previewsExpireAfterDays
      = (if (some (7 : Int) : Option Int).isSome then (some (7 : Int)) else (some (30 : Int))) :=
  merge_overlay_precedence
    { previews := some { generation := "automatic" }, previewsExpireAfterDays := some 30 }
    { previews := some { generation := "none" }, previewsExpireAfterDays := some 7 }
    rfl
    { services := [], databases := [], envVarGroups := [],
      previews := some { generation := "none" }, previewsExpireAfterDays := some 7 }
    rfl

end Render
